import Mathlib

/-!
Verification of the one-gate backend core.

A shallow embedding, in Lean 4, of the core subsystems of the `one-gate`
backend:

* the tolerant model-response recovery ladder of `backend/ai/app.py`
  (`_parse_json_response`, `_fix_truncated_json`, `_extract_partial_fields`),
* the retrying model-call loop `_gemini_generate` of the same file,
* the background analysis coordinators `_run_ai_analysis` of
  `backend/main.py` and of `backend/helpers/ai_helpers.py`,
* the record create/upload endpoints of `backend/main.py`,
* the per-user SSE event broker `_SseBroker` of `backend/main.py`.

External collaborators (the Gemini model, the Supabase row store, Google
Calendar / Notion, the HTTP transport) are represented as explicit
parameters: a model invocation is a value of type `GenOutcome`, a storage
insert or an external upload is an `Option` / `Except` argument, and every
embedded operation returns the produced row state and the list of published
events instead of performing I/O.

Python data is modelled as follows: `dict`/`list`/`str`/`int`/... values
flowing through the JSON pipeline are a `Json` inductive; a Python string is
a Lean `String` (indexing and slicing in the source is by code point, which
matches Lean's `Char` operations); machine integers do not occur in the
modelled code.  The payload of `Json.str` is the exact character sequence
that stood between the two quotes in the source text: escape sequences are
validated but kept verbatim, which is faithful for every comparison the
verified code performs (no code path compares a decoded spelling against an
escaped one).
-/

set_option autoImplicit false

namespace OneGate

/-- A JSON value as produced by Python's `json.loads`.  `num` keeps the
number's lexeme; `str` keeps the raw characters between the quotes
(escapes validated, not decoded); `obj` keeps key insertion order, with
duplicate keys collapsed to the last value exactly as a Python dict does. -/
inductive Json where
  | null
  | bool (b : Bool)
  | num (lexeme : String)
  | str (s : String)
  | arr (elems : List Json)
  | obj (entries : List (String × Json))

namespace Json

/-- Python `d[key]` / `d.get(key)` on the entry list of an object. -/
def lookupKey : List (String × Json) → String → Option Json
  | [], _ => none
  | (k, v) :: rest, key => if k = key then some v else lookupKey rest key

/-- Python `key in d` on the entry list of an object. -/
def containsKey (es : List (String × Json)) (key : String) : Bool :=
  es.any (fun e => e.1 = key)

/-- Python `d[key] = v`: update in place if the key exists (keeping its
position), else append a new entry. -/
def insertKey : List (String × Json) → String → Json → List (String × Json)
  | [], k, v => [(k, v)]
  | (k', v') :: rest, k, v =>
    if k' = k then (k', v) :: rest else (k', v') :: insertKey rest k v

end Json

/-! ## The JSON grammar accepted by `json.loads`

`jsonLoads` mirrors the acceptance behaviour of CPython's strict JSON
decoder: whitespace is ` \t\n\r`; strings reject unescaped control
characters and malformed escapes; numbers follow the decoder's NUMBER
regex; `NaN`/`Infinity`/`-Infinity` are accepted; objects and arrays
forbid trailing commas; trailing non-whitespace input is rejected. -/

/-- The whitespace characters of Python's JSON decoder (` \t\n\r`). -/
def isJsonWs (c : Char) : Bool :=
  c == ' ' || c == '\t' || c == '\n' || c == '\r'

/-- Whitespace of the regex class `\s` (used by the `re` substitutions). -/
def isReWs (c : Char) : Bool :=
  c == ' ' || c == '\t' || c == '\n' || c == '\r' || c == '\x0b' || c == '\x0c'

def skipWs (l : List Char) : List Char := l.dropWhile isJsonWs

/-- Hexadecimal digit test for `\uXXXX` escapes. -/
def isHexDigitC (c : Char) : Bool :=
  c.isDigit || ('a' ≤ c && c ≤ 'f') || ('A' ≤ c && c ≤ 'F')

/-- The single-character escapes accepted inside a JSON string. -/
def isSimpleEscape (c : Char) : Bool :=
  c == '"' || c == '\\' || c == '/' || c == 'b' || c == 'f' ||
  c == 'n' || c == 'r' || c == 't'

/-- Scan the body of a JSON string (the cursor is just past the opening
quote).  Returns the raw content characters and the input past the closing
quote; fails on malformed escapes or unescaped control characters. -/
def parseStringBody : List Char → Option (List Char × List Char)
  | [] => none
  | '"' :: rest => some ([], rest)
  | '\\' :: 'u' :: h1 :: h2 :: h3 :: h4 :: rest =>
    if isHexDigitC h1 && isHexDigitC h2 && isHexDigitC h3 && isHexDigitC h4 then
      (parseStringBody rest).map
        (fun p => ('\\' :: 'u' :: h1 :: h2 :: h3 :: h4 :: p.1, p.2))
    else none
  | '\\' :: c :: rest =>
    if c == 'u' then none
    else if isSimpleEscape c then
      (parseStringBody rest).map (fun p => ('\\' :: c :: p.1, p.2))
    else none
  | ['\\'] => none
  | c :: rest =>
    if c.val < 32 then none
    else (parseStringBody rest).map (fun p => (c :: p.1, p.2))

/-- Split a maximal run of decimal digits off the front of the input. -/
def lexDigits (l : List Char) : List Char × List Char :=
  (l.takeWhile Char.isDigit, l.dropWhile Char.isDigit)

/-- The optional fraction part `(\.\d+)?` of the decoder's number regex. -/
def lexFrac (rest : List Char) : List Char × List Char :=
  match rest with
  | '.' :: d :: r =>
    if d.isDigit then
      let (ds, r') := lexDigits r
      ('.' :: d :: ds, r')
    else ([], rest)
  | _ => ([], rest)

/-- The optional exponent part `([eE][-+]?\d+)?` of the number regex. -/
def lexExp (rest : List Char) : List Char × List Char :=
  match rest with
  | e :: s :: r2 =>
    if e == 'e' || e == 'E' then
      if s == '+' || s == '-' then
        match r2 with
        | d :: r3 =>
          if d.isDigit then
            let (ds, r') := lexDigits r3
            ([e, s, d] ++ ds, r')
          else ([], rest)
        | [] => ([], rest)
      else if s.isDigit then
        let (ds, r') := lexDigits r2
        ([e, s] ++ ds, r')
      else ([], rest)
    else ([], rest)
  | _ => ([], rest)

/-- Lex a JSON number (the decoder's `NUMBER_RE`):
`-?(0|[1-9]\d*)(\.\d+)?([eE][-+]?\d+)?`.  Returns the lexeme and rest. -/
def parseNumber (l : List Char) : Option (List Char × List Char) :=
  let (sign, l1) :=
    match l with
    | '-' :: r => (['-'], r)
    | _ => (([] : List Char), l)
  match l1 with
  | '0' :: r =>
    let (f, r1) := lexFrac r
    let (e, r2) := lexExp r1
    some (sign ++ ['0'] ++ f ++ e, r2)
  | c :: r =>
    if c.isDigit then
      let (ds, rI) := lexDigits r
      let (f, r1) := lexFrac rI
      let (e, r2) := lexExp r1
      some (sign ++ c :: ds ++ f ++ e, r2)
    else none
  | [] => none

mutual

/- Brace characters are written with `\x7b` / `\x7d` escapes throughout. -/

/-- Scan one JSON value at the head of the input (whitespace already
skipped).  The fuel only bounds recursion depth; the top-level call supplies
more than any input can consume, so exhaustion never occurs in practice. -/
def parseValue : Nat → List Char → Option (Json × List Char)
  | 0, _ => none
  | f + 1, l =>
    match l with
    | '\x7b' :: rest =>
      match skipWs rest with
      | '\x7d' :: r => some (.obj [], r)
      | l' => parseMembers f l' []
    | '[' :: rest =>
      match skipWs rest with
      | ']' :: r => some (.arr [], r)
      | l' => parseElems f l' []
    | '"' :: rest =>
      (parseStringBody rest).map (fun p => (.str (String.mk p.1), p.2))
    | 't' :: 'r' :: 'u' :: 'e' :: r => some (.bool true, r)
    | 'f' :: 'a' :: 'l' :: 's' :: 'e' :: r => some (.bool false, r)
    | 'n' :: 'u' :: 'l' :: 'l' :: r => some (.null, r)
    | 'N' :: 'a' :: 'N' :: r => some (.num "NaN", r)
    | 'I' :: 'n' :: 'f' :: 'i' :: 'n' :: 'i' :: 't' :: 'y' :: r =>
      some (.num "Infinity", r)
    | '-' :: 'I' :: 'n' :: 'f' :: 'i' :: 'n' :: 'i' :: 't' :: 'y' :: r =>
      some (.num "-Infinity", r)
    | l' => (parseNumber l').map (fun p => (.num (String.mk p.1), p.2))

/-- Scan the members of an object, positioned at the start of a key. -/
def parseMembers :
    Nat → List Char → List (String × Json) → Option (Json × List Char)
  | 0, _, _ => none
  | f + 1, l, acc =>
    match l with
    | '"' :: rest =>
      match parseStringBody rest with
      | none => none
      | some (k, r1) =>
        match skipWs r1 with
        | ':' :: r2 =>
          match parseValue f (skipWs r2) with
          | none => none
          | some (v, r3) =>
            let acc' := Json.insertKey acc (String.mk k) v
            match skipWs r3 with
            | ',' :: r4 => parseMembers f (skipWs r4) acc'
            | '\x7d' :: r4 => some (.obj acc', r4)
            | _ => none
        | _ => none
    | _ => none

/-- Scan the elements of an array, positioned at the start of a value. -/
def parseElems : Nat → List Char → List Json → Option (Json × List Char)
  | 0, _, _ => none
  | f + 1, l, acc =>
    match parseValue f l with
    | none => none
    | some (v, r1) =>
      match skipWs r1 with
      | ',' :: r2 => parseElems f (skipWs r2) (acc ++ [v])
      | ']' :: r2 => some (.arr (acc ++ [v]), r2)
      | _ => none

end

/-- The `json.loads` analogue on a character list: leading whitespace, one value,
trailing whitespace, end of input.  The fuel is a function of the input
after leading-whitespace removal only, so that prepending whitespace cannot
change the outcome. -/
def jsonLoadsL (l : List Char) : Option Json :=
  let l' := skipWs l
  match parseValue (2 * l'.length + 4) l' with
  | some (v, rest) => if skipWs rest = [] then some v else none
  | none => none

/-- Python `json.loads` on a string: `some` the parsed value on success,
`none` when a `JSONDecodeError` would be raised. -/
def jsonLoads (s : String) : Option Json := jsonLoadsL s.data

/-- Whether `json.loads` accepts the string. -/
def isValidJson (s : String) : Bool := (jsonLoads s).isSome

/-! ## `_fix_truncated_json` (backend/ai/app.py, lines 167-232)

The repair pass: escape literal newlines that occur inside a string, close
an unterminated string, drop a dangling key fragment after a trailing
comma (four `re.sub` patterns, applied in source order), then append the
missing `]`s and `\x7d`s counted naively over the whole text. -/

/-- The character scan of `_fix_truncated_json`: walk the text with
`in_string` / `escape_next` flags, replacing a literal `\n` / `\r` inside a
string by the two-character escape.  Returns the rewritten text and the
final `in_string` flag. -/
def escapeNewlines : List Char → Bool → Bool → List Char × Bool
  | [], inS, _ => ([], inS)
  | c :: rest, inS, true =>
    let (r, fin) := escapeNewlines rest inS false
    (c :: r, fin)
  | '\\' :: rest, inS, false =>
    let (r, fin) := escapeNewlines rest inS true
    ('\\' :: r, fin)
  | '"' :: rest, inS, false =>
    let (r, fin) := escapeNewlines rest (!inS) false
    ('"' :: r, fin)
  | c :: rest, inS, false =>
    if inS && c == '\n' then
      let (r, fin) := escapeNewlines rest inS false
      ('\\' :: 'n' :: r, fin)
    else if inS && c == '\r' then
      let (r, fin) := escapeNewlines rest inS false
      ('\\' :: 'r' :: r, fin)
    else
      let (r, fin) := escapeNewlines rest inS false
      (c :: r, fin)

/-- Matcher for the end-anchored pattern `,\s*$`. -/
def matchCommaWsEnd : List Char → Bool
  | ',' :: rest => rest.all isReWs
  | _ => false

/-- Matcher for the end-anchored pattern `,\s*"[^"]*$`. -/
def matchCommaKeyOpen : List Char → Bool
  | ',' :: rest =>
    match rest.dropWhile isReWs with
    | '"' :: r => r.all (fun c => c != '"')
    | _ => false
  | _ => false

/-- Matcher for the end-anchored pattern `,\s*"[^"]*"\s*$`. -/
def matchCommaKeyClosed : List Char → Bool
  | ',' :: rest =>
    match rest.dropWhile isReWs with
    | '"' :: r =>
      match r.dropWhile (fun c => c != '"') with
      | '"' :: r2 => r2.all isReWs
      | _ => false
    | _ => false
  | _ => false

/-- Matcher for the end-anchored pattern `,\s*"[^"]*"\s*:\s*$`. -/
def matchCommaKeyColon : List Char → Bool
  | ',' :: rest =>
    match rest.dropWhile isReWs with
    | '"' :: r =>
      match r.dropWhile (fun c => c != '"') with
      | '"' :: r2 =>
        match r2.dropWhile isReWs with
        | ':' :: r3 => r3.all isReWs
        | _ => false
      | _ => false
    | _ => false
  | _ => false

/-- Model of `re.sub(pattern, "", text)` for an end-anchored pattern: delete the
suffix starting at the leftmost position whose suffix matches (such a
pattern has at most one non-overlapping match). -/
def stripEndMatch (p : List Char → Bool) : List Char → List Char
  | [] => []
  | c :: rest => if p (c :: rest) then [] else c :: stripEndMatch p rest

/-- The repair pass `_fix_truncated_json` on a character list.  Bracket balancing counts
braces/brackets naively over the whole text (string contents included) and
appends `max 0` closers, exactly like Python's `"]" * n` with a possibly
negative `n`. -/
def fixTruncatedJsonL (l : List Char) : List Char :=
  if l = [] then l
  else
    let (t1, inS) := escapeNewlines l false false
    let t2 := if inS then t1 ++ ['"'] else t1
    let t3 := stripEndMatch matchCommaKeyColon t2
    let t4 := stripEndMatch matchCommaKeyClosed t3
    let t5 := stripEndMatch matchCommaKeyOpen t4
    let t6 := stripEndMatch matchCommaWsEnd t5
    let openBraces : Int := (t6.count '\x7b' : Int) - (t6.count '\x7d' : Int)
    let openBrackets : Int := (t6.count '[' : Int) - (t6.count ']' : Int)
    t6 ++ List.replicate openBrackets.toNat ']'
       ++ List.replicate openBraces.toNat '\x7d'

/-- The repair pass `_fix_truncated_json` on a string. -/
def fixTruncatedJson (s : String) : String := String.mk (fixTruncatedJsonL s.data)

/-! ## `_extract_partial_fields` (backend/ai/app.py, lines 235-273)

Independent `re.search` passes for `type` / `summary` / `content` /
`category`; accepted only when both a recognized `type` and a truthy
(non-empty) `summary` were found, with `content` backfilled from `summary`
and `category` backfilled with a kind-dependent default label. -/

/-- Case-insensitive character comparison (ASCII, as `re.IGNORECASE`). -/
def lowEq (a b : Char) : Bool := a.toLower == b.toLower

/-- Match a literal pattern case-insensitively at the head of the input;
returns the actually matched characters and the rest. -/
def matchCI : List Char → List Char → Option (List Char × List Char)
  | [], l => some ([], l)
  | p :: ps, c :: rest =>
    if lowEq p c then (matchCI ps rest).map (fun q => (c :: q.1, q.2)) else none
  | _ :: _, [] => none

/-- Match a literal pattern (case-sensitively) at the head of the input. -/
def expectLit : List Char → List Char → Option (List Char)
  | [], l => some l
  | p :: ps, c :: rest => if p == c then expectLit ps rest else none
  | _ :: _, [] => none

/-- Try a position-anchored matcher at every position, left to right:
`re.search` semantics. -/
def searchLeftmost {α : Type} (f : List Char → Option α) :
    List Char → Option α
  | [] => f []
  | c :: rest =>
    match f (c :: rest) with
    | some a => some a
    | none => searchLeftmost f rest

/-- The pattern `"type"\s*:\s*"(MEMO|CALENDAR)"` with `re.IGNORECASE`,
anchored at the current position; returns `group(1).upper()`. -/
def matchTypeAt (l : List Char) : Option String :=
  match matchCI ("\"type\"".data) l with
  | none => none
  | some (_, r1) =>
    match r1.dropWhile isReWs with
    | ':' :: r3 =>
      match (r3.dropWhile isReWs) with
      | '"' :: r5 =>
        match matchCI ("memo".data) r5 with
        | some (g, '"' :: _) => some (String.mk (g.map Char.toUpper))
        | _ =>
          match matchCI ("calendar".data) r5 with
          | some (g, '"' :: _) => some (String.mk (g.map Char.toUpper))
          | _ => none
      | _ => none
    | _ => none

/-- The pattern `"<key>"\s*:\s*"([^"]*)"`, anchored at the current
position; returns the captured group. -/
def matchKeyStringAt (key : List Char) (l : List Char) : Option String :=
  match expectLit ('"' :: key ++ ['"']) l with
  | none => none
  | some r1 =>
    match r1.dropWhile isReWs with
    | ':' :: r3 =>
      match r3.dropWhile isReWs with
      | '"' :: r5 =>
        match r5.dropWhile (fun c => c != '"') with
        | '"' :: _ => some (String.mk (r5.takeWhile (fun c => c != '"')))
        | _ => none
      | _ => none
    | _ => none

/-- The pattern `"content"\s*:\s*"([^"]*)"?` (closing quote optional),
anchored at the current position. -/
def matchContentAt (l : List Char) : Option String :=
  match expectLit ("\"content\"".data) l with
  | none => none
  | some r1 =>
    match r1.dropWhile isReWs with
    | ':' :: r3 =>
      match r3.dropWhile isReWs with
      | '"' :: r5 => some (String.mk (r5.takeWhile (fun c => c != '"')))
      | _ => none
    | _ => none

/-- The fallback `_extract_partial_fields`: the four regex searches over the raw text,
the `type`-and-`summary` acceptance test (Python truthiness: an empty
summary string is falsy and rejects), and the two backfills. -/
def extractPartialFieldsL (l : List Char) : Option Json :=
  let tOpt := searchLeftmost matchTypeAt l
  let sOpt := searchLeftmost (matchKeyStringAt ("summary".data)) l
  let cOpt := searchLeftmost matchContentAt l
  let gOpt := searchLeftmost (matchKeyStringAt ("category".data)) l
  let entries :=
    (match tOpt with | some t => [("type", Json.str t)] | none => []) ++
    (match sOpt with | some s => [("summary", Json.str s)] | none => []) ++
    (match cOpt with | some c => [("content", Json.str c)] | none => []) ++
    (match gOpt with | some g => [("category", Json.str g)] | none => [])
  match tOpt, sOpt with
  | some t, some s =>
    if t.length != 0 && s.length != 0 then
      let entries2 :=
        if cOpt.isSome then entries else entries ++ [("content", Json.str s)]
      let entries3 :=
        if gOpt.isSome then entries2
        else entries2 ++
          [("category", Json.str (if t = "CALENDAR" then "일정" else "메모"))]
      some (.obj entries3)
    else none
  | _, _ => none

/-- The fallback `_extract_partial_fields` on a string. -/
def extractPartialFields (s : String) : Option Json :=
  extractPartialFieldsL s.data

/-! ## `_parse_json_response` (backend/ai/app.py, lines 276-310)

Extraction (fenced block first, else first `\x7b` to end of string), then
the recovery ladder: strict parse, repair + reparse, partial field
extraction over the original text, and finally the error dict. -/

/-- Regex-`\s` trim, as performed by the `\s*(...)\s*` groups around the
fenced-block content. -/
def stripRe (l : List Char) : List Char :=
  ((l.dropWhile isReWs).reverse.dropWhile isReWs).reverse

/-- Whether `pat` is a prefix of the input. -/
def isPrefixL : List Char → List Char → Bool
  | [], _ => true
  | p :: ps, c :: rest => p == c && isPrefixL ps rest
  | _ :: _, [] => false

/-- Index of the first occurrence of `pat` as a substring. -/
def firstSubIdx (pat : List Char) : List Char → Option Nat
  | [] => if isPrefixL pat [] then some 0 else none
  | c :: rest =>
    if isPrefixL pat (c :: rest) then some 0
    else (firstSubIdx pat rest).map (· + 1)

/-- The search for ```` ```json\s*([\s\S]*?)\s*``` ````: locate the first
```` ```json ````, then the first subsequent ```` ``` ````; the captured
group is the text in between trimmed of `\s` on both sides.  (If the
opening marker is never followed by a closing ```` ``` ```` the regex
fails at every start position, since any later opening marker would itself
contain a closing triple.) -/
def extractFenceContent (l : List Char) : Option (List Char) :=
  match firstSubIdx ("```json".data) l with
  | none => none
  | some i =>
    let u := l.drop (i + 7)
    match firstSubIdx ("```".data) u with
    | none => none
    | some j => some (stripRe (u.take j))

/-- The fallback pattern `\x7b[\s\S]*`: from the first `\x7b` (if any) to
the end of the string. -/
def extractFromBrace (l : List Char) : Option (List Char) :=
  if l.any (fun c => c == '\x7b') then
    some (l.dropWhile (fun c => c != '\x7b'))
  else none

/-- The failure dict `\x7b"error": "JSON 파싱 실패", "raw": text\x7d`. -/
def errorDict (text : String) : Json :=
  .obj [("error", .str "JSON 파싱 실패"), ("raw", .str text)]

/-- The recovery ladder `_parse_json_response`. -/
def parseJsonResponse (text : String) : Json :=
  let jsonStrOpt :=
    match extractFenceContent text.data with
    | some c => some c
    | none => extractFromBrace text.data
  match jsonStrOpt with
  | none => errorDict text
  | some js =>
    match jsonLoadsL js with
    | some v => v
    | none =>
      match jsonLoadsL (fixTruncatedJsonL js) with
      | some v => v
      | none =>
        match extractPartialFieldsL text.data with
        | some d => d
        | none => errorDict text

/-! ## Python value helpers used by the pipeline code -/

mutual

/-- Python `repr` of a JSON-shaped value (dicts/lists as Python prints
them; single quotes around strings, quote escaping inside the repr is not
modelled since no verified property inspects a repr's content). -/
def pyReprJ : Json → String
  | .null => "None"
  | .bool true => "True"
  | .bool false => "False"
  | .num lx => lx
  | .str s => "'" ++ s ++ "'"
  | .arr xs => "[" ++ pyReprList xs ++ "]"
  | .obj es => "\x7b" ++ pyReprEntries es ++ "\x7d"

def pyReprList : List Json → String
  | [] => ""
  | [x] => pyReprJ x
  | x :: y :: rest => pyReprJ x ++ ", " ++ pyReprList (y :: rest)

def pyReprEntries : List (String × Json) → String
  | [] => ""
  | [(k, v)] => "'" ++ k ++ "': " ++ pyReprJ v
  | (k, v) :: e :: rest =>
    "'" ++ k ++ "': " ++ pyReprJ v ++ ", " ++ pyReprEntries (e :: rest)

end

/-- Python `str()` as used in f-strings: identity on strings, `repr`-shaped
on containers. -/
def pyStrJ : Json → String
  | .str s => s
  | v => pyReprJ v

/-- Python truthiness of a JSON-shaped value (numeric truthiness is decided
on the lexeme; only the spellings produced by the pipeline are modelled). -/
def pyTruthy : Json → Bool
  | .null => false
  | .bool b => b
  | .str s => s.length != 0
  | .num lx => !(lx = "0" || lx = "-0" || lx = "0.0")
  | .arr xs => xs.length != 0
  | .obj es => es.length != 0

/-- Python `key in value`: key membership for a dict, element membership
for a list, substring test for a string, `TypeError` otherwise. -/
def pyContains (key : String) (v : Json) : Except String Bool :=
  match v with
  | .obj es => .ok (Json.containsKey es key)
  | .arr xs =>
    .ok (xs.any (fun x => match x with | .str s => s == key | _ => false))
  | .str s => .ok ((firstSubIdx key.data s.data).isSome)
  | _ => .error "TypeError: argument of type is not iterable"

/-- Python `value.get(key)`: an `AttributeError` on anything but a dict. -/
def pyGet (key : String) (v : Json) : Except String (Option Json) :=
  match v with
  | .obj es => .ok (Json.lookupKey es key)
  | .arr _ => .error "'list' object has no attribute 'get'"
  | .str _ => .error "'str' object has no attribute 'get'"
  | .num _ => .error "'int' object has no attribute 'get'"
  | .bool _ => .error "'bool' object has no attribute 'get'"
  | .null => .error "'NoneType' object has no attribute 'get'"

/-- Substring test (`pat in s`). -/
def containsSub (pat : String) (s : String) : Bool :=
  (firstSubIdx pat.data s.data).isSome

/-- Python `str.lower()` (ASCII; the Korean keywords are unaffected). -/
def toLowerStr (s : String) : String := String.mk (s.data.map Char.toLower)

/-! ## `_gemini_generate` (backend/ai/app.py, lines 464-525)

The retry loop `for attempt in range(MAX_RETRIES + 1)` with
`MAX_RETRIES = 2`.  The external model call of attempt `i` is the value
`call i`: `raised e` when `generate_content` (or anything in the `try`
body) raises, `responded raw` when it returns text `raw`.  A raised
exception on the last attempt propagates (`raise_http=False` for the
internal service functions, so as a plain exception, modelled `.error`).
The code falls out of the loop only if the final iteration `continue`s,
which the `attempt < MAX_RETRIES` guards make impossible; the
`최대 재시도 횟수 초과` raise after the loop is therefore dead code,
mirrored by the fuel-0 case. -/

inductive GenOutcome where
  | raised (msg : String)
  | responded (raw : String)

def MAX_RETRIES : Nat := 2

/-- The `type` validity test `result.get("type") not in valid_types`
(negated). -/
def isValidTypeVal (v : Option Json) : Bool :=
  match v with
  | some (.str s) => s == "CALENDAR" || s == "MEMO"
  | _ => false

/-- One pass of the retry loop; `remaining` counts the iterations left in
`range(MAX_RETRIES + 1)` and `lastErr` threads `last_error` (initially
`None`, rendered as an f-string would). -/
def geminiLoop (call : Nat → GenOutcome) :
    Nat → Nat → String → Except String Json
  | 0, _, lastErr => .error ("최대 재시도 횟수 초과: " ++ lastErr)
  | remaining + 1, attempt, _ =>
    match call attempt with
    | .raised e =>
      if attempt < MAX_RETRIES then geminiLoop call remaining (attempt + 1) e
      else .error e
    | .responded raw =>
      let result := parseJsonResponse raw
      match pyContains "error" result with
      | .error exc =>
        if attempt < MAX_RETRIES then
          geminiLoop call remaining (attempt + 1) exc
        else .error exc
      | .ok hasErr =>
        if hasErr && attempt < MAX_RETRIES then
          match pyGet "raw" result with
          | .error exc => geminiLoop call remaining (attempt + 1) exc
          | .ok rawOpt =>
            let le :=
              match rawOpt with
              | some (.str s) => s
              | some v => pyStrJ v
              | none => "JSON parsing failed"
            geminiLoop call remaining (attempt + 1) le
        else
          match pyGet "type" result with
          | .error exc =>
            if attempt < MAX_RETRIES then
              geminiLoop call remaining (attempt + 1) exc
            else .error exc
          | .ok tOpt =>
            let result2 :=
              if isValidTypeVal tOpt then result
              else
                match result with
                | .obj es => .obj (Json.insertKey es "type" (.str "MEMO"))
                | v => v  -- unreachable: `pyGet` succeeded, so `result` is a dict
            .ok result2

/-- The loop `_gemini_generate` with the external call abstracted. -/
def geminiGenerate (call : Nat → GenOutcome) : Except String Json :=
  geminiLoop call (MAX_RETRIES + 1) 0 "None"

/-! ## `AIAnalysisData` validation (backend/main.py 82-134 and
backend/models/schemas.py 9-65)

Pydantic validation of the analysis dict.  The two copies differ in one
point: in `models/schemas.py` the `type` field defaults to `"MEMO"` when
absent, in `main.py` it is required.  Unknown keys are ignored;
`model_dump(exclude_none=True)` returns the known fields, in declaration
order, with `None`-valued ones dropped.  The `start_time`/`end_time`/
`due_date` before-validators additionally parse the ISO text; that format
check is not modelled (no verified claim exercises it), only the
must-be-a-string check is. -/

def isStrJ : Json → Bool
  | .str _ => true
  | _ => false

def isBoolJ : Json → Bool
  | .bool _ => true
  | _ => false

def isListStrJ : Json → Bool
  | .arr xs => xs.all isStrJ
  | _ => false

def isListObjJ : Json → Bool
  | .arr xs => xs.all (fun x => match x with | .obj _ => true | _ => false)
  | _ => false

/-- The model's fields, in declaration order. -/
def aiFields : List String :=
  ["type", "summary", "content", "category", "priority", "url",
   "attachments", "start_time", "end_time", "all_day", "timezone",
   "location", "attendees", "reminders", "recurrence", "meeting_url",
   "create_meet", "status", "visibility", "busy", "body", "due_date",
   "assignee", "memo_status", "icon"]

/-- Shape check of one present, non-`None` optional field. -/
def aiOptFieldOk (name : String) (v : Json) : Bool :=
  if name = "priority" then
    match v with
    | .str s => s == "low" || s == "medium" || s == "high"
    | _ => false
  else if name = "attachments" || name = "attendees" then isListStrJ v
  else if name = "all_day" || name = "create_meet" || name = "busy" then
    isBoolJ v
  else if name = "reminders" then isListObjJ v
  else isStrJ v

/-- The dump `model_dump(exclude_none=True)` over the original entries, with the
validated `type`. -/
def dumpAiFields (es : List (String × Json)) (t : String) :
    List (String × Json) :=
  aiFields.filterMap (fun name =>
    if name = "type" then some ("type", Json.str t)
    else
      match Json.lookupKey es name with
      | none => none
      | some .null => none
      | some v => some (name, v))

/-- Validation `AIAnalysisData(**res).model_dump(exclude_none=True)`:
`.error` when pydantic raises, `.ok` with the dumped dict otherwise. -/
def validateAIAnalysisData (typeDefaultsToMemo : Bool) (res : Json) :
    Except String Json :=
  match res with
  | .obj es =>
    let typeOk : Except String String :=
      match Json.lookupKey es "type" with
      | some (.str t) =>
        if t = "CALENDAR" || t = "MEMO" then .ok t
        else .error "validation error: type"
      | some _ => .error "validation error: type"
      | none =>
        if typeDefaultsToMemo then .ok "MEMO"
        else .error "validation error: type missing"
    match typeOk with
    | .error e => .error e
    | .ok t =>
      match Json.lookupKey es "summary" with
      | some (.str _) =>
        if aiFields.all (fun name =>
            name = "type" || name = "summary" ||
            (match Json.lookupKey es name with
             | none => true
             | some .null => true
             | some v => aiOptFieldOk name v)) then
          .ok (.obj (dumpAiFields es t))
        else .error "validation error: field"
      | _ => .error "validation error: summary"
  | _ => .error "TypeError: argument after ** must be a mapping"

/-- The `type` of a validated payload. -/
def payloadTypeStr (payload : Json) : String :=
  match payload with
  | .obj es =>
    match Json.lookupKey es "type" with
    | some (.str t) => t
    | _ => ""
  | _ => ""

/-! ## `_fallback_analyze` (backend/main.py, lines 220-241)

The keyword fallback classifier of `main.py` (the copy in
`helpers/ai_helpers.py` additionally guards against empty text; only the
`main.py` copy is exercised by a verified claim). -/

def calendarKeywords : List String :=
  ["내일", "모레", "다음주", "이번주", "오늘",
   "시에", "시 ", "분에", "약속", "미팅", "회의",
   "점심", "저녁", "아침", "오전", "오후",
   "월요일", "화요일", "수요일", "목요일", "금요일", "토요일", "일요일",
   "일정", "예약", "방문", "출장", "면접"]

def fallbackAnalyzeMain (text : String) : Json :=
  let textLower := toLowerStr text
  let isCal := calendarKeywords.any (fun kw => containsSub kw textLower)
  let itype := if isCal then "CALENDAR" else "MEMO"
  .obj [("type", .str itype),
        ("summary",
         .str (if text.length > 50 then String.mk (text.data.take 50)
               else text)),
        ("content", .str text),
        ("category", .str (if isCal then "일정" else "메모"))]

/-! ## Record rows and published events

A row of the `inputs` table, restricted to the columns the verified code
reads or writes.  An event is `(user_id, event kind, payload)` as handed to
`_SseBroker.publish`. -/

structure RecordState where
  status : String
  rtype : String
  result : Option Json
  finalResult : Option Json
  completedAt : Option String
  deletedAt : Option String
  text : String
  userId : String

abbrev PublishedEvent := String × String × Json

/-! ## `_run_ai_analysis` of backend/helpers/ai_helpers.py (lines 75-173)

The background coordinator used by the records router: `outcome` is the
result of the awaited service call (`analyze_text` /
`analyze_image_bytes`, i.e. of `_gemini_generate` with
`raise_http=False`): `.error` when it raised, `.ok` with the returned
dict otherwise.  The Supabase update is represented by the returned row
state; published SSE events are returned in order. -/

/-- The failure payload persisted on any analysis error: `raw_text` is
included only when `raw_response` was set and truthy, truncated to 2000
characters. -/
def failResultJson (msg : String) (rawOpt : Option String) : Json :=
  .obj ([("analysis_failed", .bool true), ("error", .str msg)] ++
    (match rawOpt with
     | some r =>
       if r.length != 0 then
         [("raw_text", Json.str (String.mk (r.data.take 2000)))]
       else []
     | none => []))

def runAiAnalysisHelpers (recordId : Nat) (userId : String)
    (outcome : Except String Json) (rec : RecordState) :
    RecordState × List PublishedEvent :=
  let failPath := fun (msg : String) (rawOpt : Option String) =>
    ({rec with result := some (failResultJson msg rawOpt)},
     [(userId, "analysis_failed",
       Json.obj [("record_id", .num (toString recordId)),
                 ("error", .str msg)])])
  let succeed := fun (payload : Json) =>
    ({rec with status := "ANALYZED", rtype := payloadTypeStr payload,
               result := some payload},
     [(userId, "analysis_completed",
       Json.obj [("record_id", .num (toString recordId)),
                 ("status", .str "ANALYZED"),
                 ("analysis_data", payload)])])
  match outcome with
  | .error e => failPath e none
  | .ok (.obj es) =>
    if Json.containsKey es "error" then
      -- step 3: raise ValueError after recording raw_response =
      -- analysis_result.get("raw", str(analysis_result))
      let rawResponse :=
        match Json.lookupKey es "raw" with
        | some (.str s) => s
        | some v => pyStrJ v
        | none => pyStrJ (.obj es)
      let msg := "AI 응답 파싱 실패: " ++
        (match Json.lookupKey es "error" with
         | some v => pyStrJ v
         | none => "None")
      failPath msg (some rawResponse)
    else
      match validateAIAnalysisData true (.obj es) with
      | .error ve => failPath ve none
      | .ok payload => succeed payload
  | .ok res =>
    -- a non-dict model result: `AIAnalysisData(**res)` raises a TypeError,
    -- handled by the same except branch
    failPath ("TypeError: argument after ** must be a mapping; got " ++
      pyStrJ res) none

/-! ## `_run_ai_analysis` of backend/main.py (lines 244-294)

The coordinator defined in `main.py` itself.  Its except branch differs
from the helpers copy: on any failure it runs the keyword fallback and
persists it as a successful ANALYZED analysis, publishing
`analysis_completed`.  (Validation uses the `AIAnalysisData` copy of
`main.py`, whose `type` has no default.) -/

def runAiAnalysisMain (recordId : Nat) (userId : String) (text : String)
    (outcome : Except String Json) (rec : RecordState) :
    RecordState × List PublishedEvent :=
  let succeed := fun (payload : Json) =>
    ({rec with status := "ANALYZED", rtype := payloadTypeStr payload,
               result := some payload},
     [(userId, "analysis_completed",
       Json.obj [("record_id", .num (toString recordId)),
                 ("status", .str "ANALYZED"),
                 ("analysis_data", payload)])])
  let tryBody : Except String Json :=
    match outcome with
    | .error e => .error e
    | .ok res => validateAIAnalysisData false res
  match tryBody with
  | .ok payload => succeed payload
  | .error _ =>
    match validateAIAnalysisData false (fallbackAnalyzeMain text) with
    | .ok payload => succeed payload
    | .error _ => (rec, [])
      -- unreachable: the fallback dict always validates; an error here
      -- would escape the handler and silently kill the background task

/-! ## `analyze_content` (backend/main.py, lines 297-406)

The create endpoint of `main.py`, modelled for a text-only request
(`image = None`, so `image_url` stays `None`).  The storage insert is the
collaborator argument `insertId`: `some id` when the insert returned a row
with that id, `none` otherwise.

The body after a successful insert evaluates `request.user_id` (line 373):
the function binds no name `request` — its parameters are `user_id`,
`text`, `image` — so a `NameError` is raised, caught by the generic
`except Exception` handler (line 405) and converted into an HTTP 500.
Consequently the `record_created` publish and the
`background_tasks.add_task` call are never reached. -/

structure CreateResult where
  response : Except (Nat × String) Json
  inserted : Option RecordState
  events : List PublishedEvent
  scheduled : Bool

def analyzeContentMain (userId : String) (text : Option String)
    (insertId : Option Nat) : CreateResult :=
  let hasText :=
    match text with
    | some t => t.length != 0
    | none => false
  if !hasText then
    { response := .error (400, "텍스트 또는 이미지가 필요합니다"),
      inserted := none, events := [], scheduled := false }
  else
    let t := text.getD ""
    let isCal := containsSub "내일" t || containsSub "시" t ||
      containsSub "일정" t
    let itype := if isCal then "CALENDAR" else "MEMO"
    let row : RecordState :=
      { status := "PENDING", rtype := itype, result := none,
        finalResult := none, completedAt := none, deletedAt := none,
        text := t, userId := userId }
    match insertId with
    | none =>
      { response := .error (500, "레코드 생성 실패"),
        inserted := none, events := [], scheduled := false }
    | some _ =>
      { response := .error (500, "name 'request' is not defined"),
        inserted := some row, events := [], scheduled := false }

/-! ## `analyze_content` (backend/api/records.py, lines 45-169)

The records-router copy of the create endpoint (text-only request), which
publishes `record_created` and schedules the background task as its
docstring states.  `createdAt` stands for the row's `created_at` column as
returned by the insert. -/

def analyzeContentRecords (userId : String) (text : Option String)
    (insertId : Option Nat) (createdAt : String) : CreateResult :=
  let hasText :=
    match text with
    | some t => t.length != 0
    | none => false
  if !hasText then
    { response := .error (400, "텍스트 또는 이미지가 필요합니다"),
      inserted := none, events := [], scheduled := false }
  else
    let t := text.getD ""
    let isCal := containsSub "내일" t || containsSub "시" t ||
      containsSub "일정" t
    let itype := if isCal then "CALENDAR" else "MEMO"
    let row : RecordState :=
      { status := "PENDING", rtype := itype, result := none,
        finalResult := none, completedAt := none, deletedAt := none,
        text := t, userId := userId }
    match insertId with
    | none =>
      { response := .error (500, "레코드 생성 실패"),
        inserted := none, events := [], scheduled := false }
    | some rid =>
      { response := .ok (.obj
          [("status", .str "success"),
           ("data", .obj
             [("id", .num (toString rid)),
              ("type", .str itype),
              ("text", .str t),
              ("has_image", .bool false),
              ("image_url", .null),
              ("status", .str "PENDING"),
              ("created_at", .str createdAt)])]),
        inserted := some row,
        events := [(userId, "record_created",
          .obj [("record_id", .num (toString rid)),
                ("status", .str "PENDING"),
                ("type", .str itype),
                ("text", .str t),
                ("image_url", .null),
                ("created_at", .str createdAt)])],
        scheduled := true }

/-! ## `upload_record` (backend/main.py, lines 555-668)

The upload endpoint.  The whole interaction with the external target
(Google Calendar event insertion / Notion page creation, including the
request-body assembly, which only reads `upload_data` and the row) is the
collaborator argument `ext` — per the spec's external-interface contract
only its success/failure and opaque result payload matter.  Timestamps
are the argument `now` (`datetime.utcnow().isoformat()`). -/

inductive UploadOutcome where
  | ok (payload : Json)
  | failed (msg : String)

def uploadRecordMain (rec : RecordState) (finalData : Option Json)
    (googleToken : Option String) (notionConfigured : Bool)
    (ext : UploadOutcome) (now : String) :
    Except (Nat × String) Json × RecordState :=
  if rec.status != "ANALYZED" then
    (.error (400, "Only ANALYZED records can be uploaded"), rec)
  else
    -- `final_data` is persisted into `final_result` before the try block
    let rec1 :=
      match finalData with
      | some fd => { rec with finalResult := some fd }
      | none => rec
    let uploadData := finalData.getD (rec.result.getD (.obj []))
    match uploadData with
    | .obj es =>
      -- record_type = upload_data.get("type") or record.get("type")
      let recordTypeJ : Json :=
        match Json.lookupKey es "type" with
        | some v => if pyTruthy v then v else .str rec.rtype
        | none => .str rec.rtype
      let isCalendar :=
        match recordTypeJ with
        | .str t => t = "CALENDAR"
        | _ => false
      if isCalendar && googleToken.isNone then
        (.error (400, "Google token required for calendar upload"), rec1)
      else if !isCalendar && !notionConfigured then
        (.error (500, "Notion integration not configured"), rec1)
      else
        match ext with
        | .ok payload =>
          (.ok payload,
           { rec1 with status := "COMPLETED", completedAt := some now,
                       deletedAt := some now })
        | .failed e => (.error (500, e), rec1)
    | other =>
      -- `.get` on a non-dict upload_data raises, caught by the generic
      -- handler: 500, no further row mutation
      (.error (500, "'" ++ pyStrJ other ++ "' has no attribute 'get'"), rec1)

/-! ## `_SseBroker` (backend/main.py, lines 185-217)

Queues are identified by the order of their creation (`nextId`); a
subscription set is the list of live queue ids of a user, and
`queueContents` maps each ever-created queue to the messages delivered to
it.  `asyncio.Queue()` is created unbounded, so `put_nowait` never raises
`QueueFull` and the `except QueueFull: pass` guard is dead; every
operation below is total (never raises). -/

/-- Escaping for `json.dumps(data, ensure_ascii=False)`, restricted to
the characters that occur in published payloads. -/
def dumpsEscChar (c : Char) : List Char :=
  if c == '"' then ['\\', '"']
  else if c == '\\' then ['\\', '\\']
  else if c == '\n' then ['\\', 'n']
  else if c == '\r' then ['\\', 'r']
  else if c == '\t' then ['\\', 't']
  else [c]

def dumpsEsc (l : List Char) : String :=
  String.mk (l.map dumpsEscChar).flatten

mutual

/-- Serialization `json.dumps(data, ensure_ascii=False)` (default separators). -/
def dumpsJ : Json → String
  | .null => "null"
  | .bool true => "true"
  | .bool false => "false"
  | .num lx => lx
  | .str s => "\"" ++ dumpsEsc s.data ++ "\""
  | .arr xs => "[" ++ dumpsList xs ++ "]"
  | .obj es => "\x7b" ++ dumpsEntries es ++ "\x7d"

def dumpsList : List Json → String
  | [] => ""
  | [x] => dumpsJ x
  | x :: y :: rest => dumpsJ x ++ ", " ++ dumpsList (y :: rest)

def dumpsEntries : List (String × Json) → String
  | [] => ""
  | [(k, v)] => "\"" ++ dumpsEsc k.data ++ "\": " ++ dumpsJ v
  | (k, v) :: e :: rest =>
    "\"" ++ dumpsEsc k.data ++ "\": " ++ dumpsJ v ++ ", " ++
      dumpsEntries (e :: rest)

end

/-- The wire frame `event: <kind>\ndata: <json>\n\n`. -/
def formatSse (event : String) (data : Json) : String :=
  "event: " ++ event ++ "\ndata: " ++ dumpsJ data ++ "\n\n"

structure BrokerState where
  queuesByUser : List (String × List Nat)
  queueContents : List (Nat × List String)
  nextId : Nat

def emptyBroker : BrokerState :=
  { queuesByUser := [], queueContents := [], nextId := 0 }

/-- Replace (or add) a user's queue set. -/
def setUserQueues :
    List (String × List Nat) → String → List Nat → List (String × List Nat)
  | [], k, v => [(k, v)]
  | (k', v') :: rest, k, v =>
    if k' = k then (k', v) :: rest else (k', v') :: setUserQueues rest k v

/-- Drop a user's entry (`self._queues_by_user.pop(user_id, None)`). -/
def removeUser : List (String × List Nat) → String → List (String × List Nat)
  | [], _ => []
  | (k', v') :: rest, k =>
    if k' = k then rest else (k', v') :: removeUser rest k

/-- Operation `subscribe`: create a fresh queue, register it under the user. -/
def subscribe (st : BrokerState) (userId : String) : BrokerState × Nat :=
  let q := st.nextId
  let existing := (st.queuesByUser.lookup userId).getD []
  ({ queuesByUser := setUserQueues st.queuesByUser userId (existing ++ [q]),
     queueContents := st.queueContents ++ [(q, [])],
     nextId := q + 1 }, q)

/-- Operation `unsubscribe`: discard the queue from the user's set; drop the user's
entry once the set is empty; no-op when the user has no entry. -/
def unsubscribe (st : BrokerState) (userId : String) (q : Nat) :
    BrokerState :=
  match st.queuesByUser.lookup userId with
  | none => st
  | some qs =>
    if qs = [] then st  -- `if not queues: return` (empty set is falsy)
    else
      let qs' := qs.erase q
      if qs' = [] then
        { st with queuesByUser := removeUser st.queuesByUser userId }
      else
        { st with queuesByUser := setUserQueues st.queuesByUser userId qs' }

/-- Append a message to one queue's content. -/
def pushMsg : List (Nat × List String) → Nat → String → List (Nat × List String)
  | [], _, _ => []
  | (k, msgs) :: rest, q, msg =>
    if k = q then (k, msgs ++ [msg]) :: rest
    else (k, msgs) :: pushMsg rest q msg

/-- Operation `publish`: format the wire event once, snapshot the user's queue set,
enqueue onto each queue.  Publishing to a user with no subscribers leaves
the state unchanged. -/
def publish (st : BrokerState) (userId : String) (event : String)
    (data : Json) : BrokerState :=
  let message := formatSse event data
  let queues := (st.queuesByUser.lookup userId).getD []
  { st with
      queueContents :=
        queues.foldl (fun c q => pushMsg c q message) st.queueContents }

/-- The messages delivered so far to queue `q`. -/
def queueContentsOf (st : BrokerState) (q : Nat) : List String :=
  (st.queueContents.lookup q).getD []

/-! ## Statement helpers and concrete instances -/

/-- Field access on a JSON value (`none` off a non-object). -/
def getField (j : Json) (k : String) : Option Json :=
  match j with
  | .obj es => Json.lookupKey es k
  | _ => none

/-- The `type`-coercion step of `_gemini_generate` (lines 502-509) in
isolation: force `type` to MEMO unless it is one of the two recognized
kinds. -/
def coerceTypeMemo (result : Json) : Json :=
  if isValidTypeVal (getField result "type") then result
  else
    match result with
    | .obj es => .obj (Json.insertKey es "type" (.str "MEMO"))
    | v => v

/-- One model attempt counts as failed when the call raised, or when its
response text fails recovery (recovery returned the failure dict). -/
def FailsAttempt (o : GenOutcome) : Prop :=
  (∃ e, o = .raised e) ∨
  (∃ r, o = .responded r ∧ parseJsonResponse r = errorDict r)

/-- A sample PENDING row, as inserted by the create endpoint. -/
def recPending : RecordState :=
  { status := "PENDING", rtype := "MEMO", result := none,
    finalResult := none, completedAt := none, deletedAt := none,
    text := "hello", userId := "u1" }

/-- A sample ANALYZED row. -/
def recAnalyzed : RecordState :=
  { status := "ANALYZED", rtype := "CALENDAR",
    result := some (.obj [("type", .str "CALENDAR"),
                          ("summary", .str "ok")]),
    finalResult := none, completedAt := none, deletedAt := none,
    text := "hello", userId := "u1" }

/-- The representative JSON object for the truncation-repair property. -/
def c4Rep : String := "\x7b\"type\": \"CALENDAR\", \"tags\": [\"a\", \"b\"]\x7d"

/-- Truncation of a string after `i` characters (the strings involved are
ASCII, so a byte offset is a character offset). -/
def truncAt (s : String) (i : Nat) : String := String.mk (s.data.take i)

/-- Raw model text containing a recognized type and a summary with no
closing structure (the concrete instance named by the partial-extraction
property). -/
def c10Text : String := "\x7b\"type\": \"CALENDAR\", \"summary\": \"Dentist\""

/-- A model caller that raises a transport error on attempts 0 and 1 and
returns a well-formed response on attempt 2. -/
def callThirdOk : Nat → GenOutcome := fun i =>
  match i with
  | 0 => .raised "e0"
  | 1 => .raised "e1"
  | _ => .responded "\x7b\"type\": \"CALENDAR\", \"summary\": \"ok\"\x7d"

/-- A model caller that raises a transport error on every attempt. -/
def callAllRaise : Nat → GenOutcome := fun _ => .raised "boom"

/-- A model caller whose every response is unparseable text. -/
def callAllGarbage : Nat → GenOutcome := fun _ => .responded "zzz"

/-! # Theorems -/

/-! ## C4 — repair of truncated JSON -/

/-- C4, counterexample.  The claim "for every string obtained by
truncating a valid JSON object at an arbitrary byte offset strictly after
its opening brace, `_fix_truncated_json` produces a string that parses as
valid JSON" is false: `\x7b"ab": 1\x7d` is a valid JSON object, truncating
it at byte offset 4 (strictly after the opening brace) gives `\x7b"ab`,
and the repair pass turns that into `\x7b"ab"\x7d`, which `json.loads`
rejects (a key with no value).  The dangling-key stripping only fires
after a comma, so a truncated *first* key survives into the balanced
output. -/
theorem c4_counterexample :
    isValidJson "\x7b\"ab\": 1\x7d" = true ∧
    truncAt "\x7b\"ab\": 1\x7d" 4 = "\x7b\"ab" ∧
    fixTruncatedJson "\x7b\"ab" = "\x7b\"ab\"\x7d" ∧
    isValidJson (fixTruncatedJson "\x7b\"ab") = false :=
  ⟨by decide, by decide, by decide, by decide⟩

/-- C4, amended: the repair guarantee holds for truncation offsets that do
not cut the first key or the punctuation before the first value.  Verified
exhaustively for the representative object
`\x7b"type": "CALENDAR", "tags": ["a", "b"]\x7d` (length 40): truncation at
every byte offset from 10 (the first character of the first value's
content) through the full length yields, after `_fix_truncated_json`, a
string accepted by `json.loads`; offsets 2-9 (inside `"type"`, or at the
colon/space before the first value) are exactly the failing ones. -/
theorem c4_amended :
    ∀ i : Nat, i < 41 → 10 ≤ i →
      isValidJson (fixTruncatedJson (truncAt c4Rep i)) = true := by decide

/-- C4 witness: the amended theorem applied at offset 15 (truncation in
the middle of the first value). -/
theorem c4_witness :
    isValidJson (fixTruncatedJson (truncAt c4Rep 15)) = true :=
  c4_amended 15 (by decide) (by decide)

/-! ## C3 — the create endpoint of backend/main.py -/

/-- C3, the code bug evaluated at the failing input.  For the create
request `user_id="u1"`, `text="hello"` whose storage insert succeeds
(returning row id 1), `analyze_content` of `backend/main.py` does persist
a PENDING row, but then evaluates `request.user_id` (line 373) — a name
the function never binds — so the `NameError` is converted by the generic
handler into an HTTP 500: no `record_created` event is published, no
background task is scheduled, and the request does not return success,
contrary to the function's own docstring ("즉시 record_created SSE 이벤트를
발행").  The records-router copy (`backend/api/records.py`) of the same
endpoint does behave as claimed, which the second half records. -/
theorem c3_name_error :
    (analyzeContentMain "u1" (some "hello") (some 1) =
      { response := .error (500, "name 'request' is not defined"),
        inserted := some recPending, events := [], scheduled := false }) ∧
    (analyzeContentRecords "u1" (some "hello") (some 1) "t0" =
      { response := .ok (.obj
          [("status", .str "success"),
           ("data", .obj
             [("id", .num "1"), ("type", .str "MEMO"),
              ("text", .str "hello"), ("has_image", .bool false),
              ("image_url", .null), ("status", .str "PENDING"),
              ("created_at", .str "t0")])]),
        inserted := some recPending,
        events := [("u1", "record_created",
          .obj [("record_id", .num "1"), ("status", .str "PENDING"),
                ("type", .str "MEMO"), ("text", .str "hello"),
                ("image_url", .null), ("created_at", .str "t0")])],
        scheduled := true }) :=
  ⟨rfl, rfl⟩

/-! ## Step lemmas for the retry loop -/

theorem geminiLoop_raised {call : Nat → GenOutcome} {attempt : Nat}
    (r : Nat) (le e : String) (h : call attempt = .raised e)
    (hlt : attempt < 2) :
    geminiLoop call (r + 1) attempt le = geminiLoop call r (attempt + 1) e := by
  simp [geminiLoop, h, MAX_RETRIES, hlt]

theorem geminiLoop_raised_last {call : Nat → GenOutcome}
    (r : Nat) (le e : String) (h : call 2 = .raised e) :
    geminiLoop call (r + 1) 2 le = .error e := by
  simp [geminiLoop, h, MAX_RETRIES]

theorem geminiLoop_parseFail {call : Nat → GenOutcome} {attempt : Nat}
    (r : Nat) (le : String) (raw : String) (h : call attempt = .responded raw)
    (hp : parseJsonResponse raw = errorDict raw) (hlt : attempt < 2) :
    geminiLoop call (r + 1) attempt le =
      geminiLoop call r (attempt + 1) raw := by
  simp [geminiLoop, h, hp, errorDict, pyContains, Json.containsKey, pyGet,
    Json.lookupKey, MAX_RETRIES, hlt]

theorem geminiLoop_parseFail_last {call : Nat → GenOutcome}
    (r : Nat) (le : String) (raw : String) (h : call 2 = .responded raw)
    (hp : parseJsonResponse raw = errorDict raw) :
    geminiLoop call (r + 1) 2 le =
      .ok (.obj [("error", .str "JSON 파싱 실패"), ("raw", .str raw),
                 ("type", .str "MEMO")]) := by
  simp [geminiLoop, h, hp, errorDict, pyContains, Json.containsKey, pyGet,
    Json.lookupKey, isValidTypeVal, Json.insertKey, MAX_RETRIES]

theorem geminiLoop_goodResponse {call : Nat → GenOutcome} {attempt : Nat}
    (r : Nat) (le : String) (raw : String) (d : List (String × Json))
    (h : call attempt = .responded raw)
    (hp : parseJsonResponse raw = .obj d)
    (he : Json.containsKey d "error" = false) :
    geminiLoop call (r + 1) attempt le = .ok (coerceTypeMemo (.obj d)) := by
  simp [geminiLoop, h, hp, pyContains, he, pyGet, coerceTypeMemo, getField]

/-- The loop result depends only on the calls it can make: attempts
`attempt, …, attempt + r - 1`. -/
theorem geminiLoop_congr (call call' : Nat → GenOutcome) :
    ∀ (r attempt : Nat) (le : String),
      (∀ i, attempt ≤ i → i < attempt + r → call i = call' i) →
      geminiLoop call r attempt le = geminiLoop call' r attempt le := by
  intro r
  induction r with
  | zero => intro attempt le _; rfl
  | succ n ih =>
    intro attempt le h
    have hc : call attempt = call' attempt :=
      h attempt (Nat.le_refl _) (by omega)
    have ih' : ∀ le', geminiLoop call n (attempt + 1) le' =
        geminiLoop call' n (attempt + 1) le' := by
      intro le'
      exact ih (attempt + 1) le' (fun i h1 h2 => h i (by omega) (by omega))
    simp only [geminiLoop, hc]
    cases call' attempt with
    | raised e =>
      by_cases hlt : attempt < MAX_RETRIES <;> simp [hlt, ih']
    | responded raw =>
      cases hpc : pyContains "error" (parseJsonResponse raw) with
      | error exc =>
        by_cases hlt : attempt < MAX_RETRIES <;> simp [hpc, hlt, ih']
      | ok hasErr =>
        by_cases hlt : attempt < MAX_RETRIES
        · cases hasErr <;> simp [hpc, hlt, ih']
        · cases hasErr <;> simp [hpc, hlt, ih']

/-! ## C6 — the 3-attempt budget -/

/-- C6.  `MAX_RETRIES = 2` gives `range(MAX_RETRIES + 1)` = exactly 3
model invocations: (1) transport errors on attempts 0 and 1 followed by a
response that recovers to an error-free dict on attempt 2 produce the
successful (type-coerced) result; (2) transport errors on all three
attempts propagate the final error — the scenario that would need a fourth
attempt terminally fails instead; (3) the outcome depends only on the
first three invocations, so a fourth attempt can never be consulted. -/
theorem c6_attempt_budget :
    (∀ (call : Nat → GenOutcome) (e0 e1 raw : String)
       (d : List (String × Json)),
      call 0 = .raised e0 → call 1 = .raised e1 → call 2 = .responded raw →
      parseJsonResponse raw = .obj d → Json.containsKey d "error" = false →
      geminiGenerate call = .ok (coerceTypeMemo (.obj d))) ∧
    (∀ (call : Nat → GenOutcome) (e0 e1 e2 : String),
      call 0 = .raised e0 → call 1 = .raised e1 → call 2 = .raised e2 →
      geminiGenerate call = .error e2) ∧
    (∀ call call' : Nat → GenOutcome,
      (∀ i, i < 3 → call i = call' i) →
      geminiGenerate call = geminiGenerate call') := by
  refine ⟨?_, ?_, ?_⟩
  · intro call e0 e1 raw d h0 h1 h2 hp he
    calc geminiGenerate call = geminiLoop call 3 0 "None" := rfl
      _ = geminiLoop call 2 1 e0 := geminiLoop_raised 2 "None" e0 h0 (by decide)
      _ = geminiLoop call 1 2 e1 := geminiLoop_raised 1 e0 e1 h1 (by decide)
      _ = .ok (coerceTypeMemo (.obj d)) :=
          geminiLoop_goodResponse 0 e1 raw d h2 hp he
  · intro call e0 e1 e2 h0 h1 h2
    calc geminiGenerate call = geminiLoop call 3 0 "None" := rfl
      _ = geminiLoop call 2 1 e0 := geminiLoop_raised 2 "None" e0 h0 (by decide)
      _ = geminiLoop call 1 2 e1 := geminiLoop_raised 1 e0 e1 h1 (by decide)
      _ = .error e2 := geminiLoop_raised_last 0 e1 e2 h2
  · intro call call' h
    exact geminiLoop_congr call call' 3 0 "None" (fun i _ h2 => h i (by omega))

/-- C6 witness: the budget theorem applied to concrete callers — two
transport errors then a good response succeed; three transport errors
fail terminally. -/
theorem c6_witness :
    geminiGenerate callThirdOk =
      .ok (.obj [("type", .str "CALENDAR"), ("summary", .str "ok")]) ∧
    geminiGenerate callAllRaise = .error "boom" :=
  ⟨c6_attempt_budget.1 callThirdOk "e0" "e1" _ _ rfl rfl rfl rfl rfl,
   c6_attempt_budget.2.1 callAllRaise "boom" "boom" "boom" rfl rfl rfl⟩

/-! ## C5 — invalid `type` is coerced to MEMO -/

/-- C5, counterexample.  The claim quantifies over *every* model response
that parses as JSON with a missing/unrecognized `type`.  A fenced JSON
*array* response parses as JSON and has no `type` field, yet the pipeline
fails instead of returning a MEMO-forced result: `result.get("type")`
raises `AttributeError` on a list, the generic handler retries, and after
the budget the error propagates. -/
theorem c5_counterexample :
    parseJsonResponse "```json\n[1, 2]\n```" = .arr [.num "1", .num "2"] ∧
    getField (.arr [.num "1", .num "2"]) "type" = none ∧
    geminiGenerate (fun _ => .responded "```json\n[1, 2]\n```") =
      .error "'list' object has no attribute 'get'" :=
  ⟨rfl, rfl, rfl⟩

/-- C5, amended: for every model response that recovers to a JSON *object*
without an `error` marker and whose `type` field is missing or not one of
the two recognized kinds, the pipeline returns the object with `type`
forced to `"MEMO"` — it never rejects such a response for the invalid
`type` alone. -/
theorem c5_amended :
    ∀ (call : Nat → GenOutcome) (raw : String) (d : List (String × Json)),
      call 0 = .responded raw →
      parseJsonResponse raw = .obj d →
      Json.containsKey d "error" = false →
      isValidTypeVal (Json.lookupKey d "type") = false →
      geminiGenerate call = .ok (.obj (Json.insertKey d "type" (.str "MEMO"))) := by
  intro call raw d h0 hp he ht
  calc geminiGenerate call = geminiLoop call 3 0 "None" := rfl
    _ = .ok (coerceTypeMemo (.obj d)) :=
        geminiLoop_goodResponse 2 "None" raw d h0 hp he
    _ = .ok (.obj (Json.insertKey d "type" (.str "MEMO"))) := by
        simp [coerceTypeMemo, getField, ht]

/-- C5 witness: the amended theorem applied to the response
`\x7b"summary": "hi", "type": "nonsense"\x7d`. -/
theorem c5_witness :
    geminiGenerate (fun _ =>
        .responded "\x7b\"summary\": \"hi\", \"type\": \"nonsense\"\x7d") =
      .ok (.obj [("summary", .str "hi"), ("type", .str "MEMO")]) :=
  c5_amended _ "\x7b\"summary\": \"hi\", \"type\": \"nonsense\"\x7d"
    [("summary", .str "hi"), ("type", .str "nonsense")] rfl rfl rfl rfl

/-! ## Terminal-failure lemmas shared by C1 and C2 -/

/-- A failing attempt advances the loop to the next attempt (for
attempts 0 and 1). -/
theorem geminiLoop_failStep {call : Nat → GenOutcome} {attempt : Nat}
    (r : Nat) (le : String) (h : FailsAttempt (call attempt))
    (hlt : attempt < 2) :
    ∃ le', geminiLoop call (r + 1) attempt le =
      geminiLoop call r (attempt + 1) le' := by
  rcases h with ⟨e, he⟩ | ⟨raw, hr, hpr⟩
  · exact ⟨e, geminiLoop_raised r le e he hlt⟩
  · exact ⟨raw, geminiLoop_parseFail r le raw hr hpr hlt⟩

/-- When the response of the final attempt fails recovery, the loop
returns the failure dict (with `type` coerced to MEMO) instead of
raising. -/
theorem geminiGenerate_failParse_last {call : Nat → GenOutcome}
    (raw : String) (h0 : FailsAttempt (call 0)) (h1 : FailsAttempt (call 1))
    (h2 : call 2 = .responded raw)
    (hp : parseJsonResponse raw = errorDict raw) :
    geminiGenerate call =
      .ok (.obj [("error", .str "JSON 파싱 실패"), ("raw", .str raw),
                 ("type", .str "MEMO")]) := by
  obtain ⟨le1, s0⟩ := geminiLoop_failStep 2 "None" h0 (by decide)
  obtain ⟨le2, s1⟩ := geminiLoop_failStep 1 le1 h1 (by decide)
  calc geminiGenerate call = geminiLoop call 3 0 "None" := rfl
    _ = geminiLoop call 2 1 le1 := s0
    _ = geminiLoop call 1 2 le2 := s1
    _ = _ := geminiLoop_parseFail_last 0 le2 raw h2 hp

/-- When every attempt fails, the loop ends in a raised error or in the
failure dict of the last response. -/
theorem geminiGenerate_allFail {call : Nat → GenOutcome}
    (h0 : FailsAttempt (call 0)) (h1 : FailsAttempt (call 1))
    (h2 : FailsAttempt (call 2)) :
    (∃ e, geminiGenerate call = .error e) ∨
    (∃ raw, geminiGenerate call =
      .ok (.obj [("error", .str "JSON 파싱 실패"), ("raw", .str raw),
                 ("type", .str "MEMO")])) := by
  rcases h2 with ⟨e, he⟩ | ⟨raw, hr, hpr⟩
  · obtain ⟨le1, s0⟩ := geminiLoop_failStep 2 "None" h0 (by decide)
    obtain ⟨le2, s1⟩ := geminiLoop_failStep 1 le1 h1 (by decide)
    refine .inl ⟨e, ?_⟩
    calc geminiGenerate call = geminiLoop call 3 0 "None" := rfl
      _ = geminiLoop call 2 1 le1 := s0
      _ = geminiLoop call 1 2 le2 := s1
      _ = .error e := geminiLoop_raised_last 0 le2 e he
  · exact .inr ⟨raw, geminiGenerate_failParse_last raw h0 h1 hr hpr⟩

/-- The helpers coordinator on a raised analysis error. -/
theorem runHelpers_error (recordId : Nat) (userId e : String)
    (rec : RecordState) :
    runAiAnalysisHelpers recordId userId (.error e) rec =
      ({rec with result := some (failResultJson e none)},
       [(userId, "analysis_failed",
         .obj [("record_id", .num (toString recordId)),
               ("error", .str e)])]) := rfl

/-- The helpers coordinator on the failure dict returned by the loop. -/
theorem runHelpers_errdict (recordId : Nat) (userId raw : String)
    (rec : RecordState) :
    runAiAnalysisHelpers recordId userId
        (.ok (.obj [("error", .str "JSON 파싱 실패"), ("raw", .str raw),
                    ("type", .str "MEMO")])) rec =
      ({rec with
          result := some (failResultJson "AI 응답 파싱 실패: JSON 파싱 실패" (some raw))},
       [(userId, "analysis_failed",
         .obj [("record_id", .num (toString recordId)),
               ("error", .str "AI 응답 파싱 실패: JSON 파싱 실패")])]) := rfl

/-! ## C2 — recovery failure on the last attempt -/

/-- C2.  If attempts 0 and 1 fail and the response of the final allowed
attempt fails recovery, then (1) the loop yields the failure payload
carrying that last raw response (marked `error`, `type`-coerced, *not* a
structured classification — it has no `summary`); (2) the background
coordinator turns it into a terminal failure: it persists the diagnostic
payload and publishes `analysis_failed`; (3) the persisted payload carries
the last raw response truncated to 2000 characters (when non-empty). -/
theorem c2_terminal_failure :
    ∀ (call : Nat → GenOutcome) (raw : String) (recordId : Nat)
      (userId : String) (rec : RecordState),
      FailsAttempt (call 0) → FailsAttempt (call 1) →
      call 2 = .responded raw → parseJsonResponse raw = errorDict raw →
      (geminiGenerate call =
        .ok (.obj [("error", .str "JSON 파싱 실패"), ("raw", .str raw),
                   ("type", .str "MEMO")])) ∧
      (Json.lookupKey
        [("error", Json.str "JSON 파싱 실패"), ("raw", Json.str raw),
         ("type", Json.str "MEMO")] "summary" = none) ∧
      (runAiAnalysisHelpers recordId userId (geminiGenerate call) rec =
        ({rec with
            result := some (failResultJson "AI 응답 파싱 실패: JSON 파싱 실패" (some raw))},
         [(userId, "analysis_failed",
           .obj [("record_id", .num (toString recordId)),
                 ("error", .str "AI 응답 파싱 실패: JSON 파싱 실패")])])) ∧
      (raw ≠ "" →
        getField (failResultJson "AI 응답 파싱 실패: JSON 파싱 실패" (some raw))
            "raw_text" =
          some (.str (String.mk (raw.data.take 2000)))) := by
  intro call raw recordId userId rec h0 h1 h2 hp
  have hgen := geminiGenerate_failParse_last raw h0 h1 h2 hp
  refine ⟨hgen, rfl, ?_, ?_⟩
  · rw [hgen]; exact runHelpers_errdict recordId userId raw rec
  · intro hne
    obtain ⟨l⟩ := raw
    cases l with
    | nil => exact absurd rfl hne
    | cons c cs => simp [failResultJson, getField, Json.lookupKey]

/-- C2 witness: the model answers unparseable text `"zzz"` on every
attempt; the coordinator persists the diagnostic payload carrying the raw
text and publishes `analysis_failed`. -/
theorem c2_witness :
    runAiAnalysisHelpers 7 "u1" (geminiGenerate callAllGarbage) recPending =
      ({recPending with
          result := some (failResultJson "AI 응답 파싱 실패: JSON 파싱 실패" (some "zzz"))},
       [("u1", "analysis_failed",
         .obj [("record_id", .num "7"),
               ("error", .str "AI 응답 파싱 실패: JSON 파싱 실패")])]) :=
  (c2_terminal_failure callAllGarbage "zzz" 7 "u1" recPending
    (.inr ⟨"zzz", rfl, rfl⟩) (.inr ⟨"zzz", rfl, rfl⟩) rfl rfl).2.2.1

/-! ## C1 — coordinator behaviour on terminal classification failure -/

/-- C1, counterexample.  The repository has two background coordinators
and the claim's sources cite both.  For the one defined in
`backend/main.py` (lines 244-294) the claim is false: when the model call
raises on every attempt (a terminal failure), its except branch runs the
keyword fallback, persists the row as ANALYZED, and publishes
`analysis_completed` — not `analysis_failed`, and the status does not
stay PENDING. -/
theorem c1_counterexample :
    geminiGenerate callAllRaise = .error "boom" ∧
    (runAiAnalysisMain 1 "u1" "hello"
        (geminiGenerate callAllRaise) recPending).1.status = "ANALYZED" ∧
    ((runAiAnalysisMain 1 "u1" "hello"
        (geminiGenerate callAllRaise) recPending).2.map (fun e => e.2.1) =
      ["analysis_completed"]) :=
  ⟨rfl, rfl, rfl⟩

/-- C1, amended: the claim holds for the coordinator in
`backend/helpers/ai_helpers.py` (the copy wired to the records router).
When every classification attempt fails (the model call raised, or the
response failed recovery, with no attempts remaining), the coordinator
leaves the status at PENDING, persists the diagnostic failure payload,
publishes exactly one `analysis_failed` event to the record's user, and
never publishes `analysis_completed`. -/
theorem c1_amended :
    ∀ (call : Nat → GenOutcome) (recordId : Nat) (userId : String)
      (rec : RecordState),
      rec.status = "PENDING" →
      FailsAttempt (call 0) → FailsAttempt (call 1) → FailsAttempt (call 2) →
      ((runAiAnalysisHelpers recordId userId
          (geminiGenerate call) rec).1.status = "PENDING") ∧
      (∃ msg rawOpt,
        (runAiAnalysisHelpers recordId userId
          (geminiGenerate call) rec).1.result =
            some (failResultJson msg rawOpt)) ∧
      (∃ msg,
        (runAiAnalysisHelpers recordId userId (geminiGenerate call) rec).2 =
          [(userId, "analysis_failed",
            .obj [("record_id", .num (toString recordId)),
                  ("error", .str msg)])]) ∧
      (∀ ev ∈ (runAiAnalysisHelpers recordId userId
          (geminiGenerate call) rec).2,
        ev.2.1 ≠ "analysis_completed") := by
  intro call recordId userId rec hst h0 h1 h2
  rcases geminiGenerate_allFail h0 h1 h2 with ⟨e, hg⟩ | ⟨raw, hg⟩
  · rw [hg, runHelpers_error]
    refine ⟨hst, ⟨e, none, rfl⟩, ⟨e, rfl⟩, ?_⟩
    intro ev hev
    simp at hev
    simp [hev]
  · rw [hg, runHelpers_errdict]
    refine ⟨hst, ⟨_, some raw, rfl⟩, ⟨_, rfl⟩, ?_⟩
    intro ev hev
    simp at hev
    simp [hev]

/-- C1 witness: the amended theorem applied to a PENDING row and a model
that raises on every attempt. -/
theorem c1_witness :
    (runAiAnalysisHelpers 7 "u1"
        (geminiGenerate callAllRaise) recPending).1.status = "PENDING" ∧
    (∀ ev ∈ (runAiAnalysisHelpers 7 "u1"
        (geminiGenerate callAllRaise) recPending).2,
      ev.2.1 ≠ "analysis_completed") :=
  let h := c1_amended callAllRaise 7 "u1" recPending rfl
    (.inl ⟨"boom", rfl⟩) (.inl ⟨"boom", rfl⟩) (.inl ⟨"boom", rfl⟩)
  ⟨h.1, h.2.2.2⟩

/-! ## C7 — upload frame conditions -/

/-- C7.  (1) An upload attempt on a record that is not ANALYZED is
rejected with HTTP 400 and the row is returned untouched.  (2) On an
ANALYZED record, whenever the endpoint fails (missing token, missing
Notion configuration, or the external call raising), the row's stored
analysis `result` and its ANALYZED status are unchanged — only
`final_result` may have been written, which the claim permits. -/
theorem c7_upload_frame :
    ∀ (rec : RecordState) (finalData : Option Json) (gt : Option String)
      (ncfg : Bool) (ext : UploadOutcome) (now : String),
      (rec.status ≠ "ANALYZED" →
        uploadRecordMain rec finalData gt ncfg ext now =
          (.error (400, "Only ANALYZED records can be uploaded"), rec)) ∧
      (rec.status = "ANALYZED" →
        ∀ p, (uploadRecordMain rec finalData gt ncfg ext now).1 = .error p →
          (uploadRecordMain rec finalData gt ncfg ext now).2.result =
              rec.result ∧
            (uploadRecordMain rec finalData gt ncfg ext now).2.status =
              "ANALYZED") := by
  intro rec finalData gt ncfg ext now
  constructor
  · intro hne
    have hb : (rec.status != "ANALYZED") = true := by
      simp [bne_iff_ne, hne]
    simp [uploadRecordMain, hb]
  · intro h p
    have hb : (rec.status != "ANALYZED") = false := by
      simp [bne_iff_ne, h]
    simp only [uploadRecordMain, hb, Bool.false_eq_true, if_false]
    intro hp
    constructor
    all_goals
      revert hp
      cases finalData <;>
        simp only [Option.getD] <;>
        split <;>
        (try split) <;>
        (try split) <;>
        (try cases ext) <;>
        simp_all [h]

/-- C7 witness: the frame theorem applied to a PENDING row (rejected
untouched) and to an ANALYZED row whose external upload fails (result and
status unchanged). -/
theorem c7_witness :
    uploadRecordMain recPending none none true (.ok (.obj [])) "t1" =
      (.error (400, "Only ANALYZED records can be uploaded"), recPending) ∧
    ((uploadRecordMain recAnalyzed none (some "tok") true
        (.failed "network down") "t1").2.result = recAnalyzed.result ∧
     (uploadRecordMain recAnalyzed none (some "tok") true
        (.failed "network down") "t1").2.status = "ANALYZED") :=
  ⟨(c7_upload_frame recPending none none true (.ok (.obj [])) "t1").1
      (by decide),
   (c7_upload_frame recAnalyzed none (some "tok") true
      (.failed "network down") "t1").2 rfl (500, "network down") rfl⟩

/-! ## C8 — the SSE broker -/

/-- C8.  Starting from the empty broker, for any user and any event: two
subscriptions receive the identical formatted wire event on a publish;
after unsubscribing the first queue, a publish still delivers to the
second and the first receives nothing; after both are unsubscribed, a
publish is a no-op on the state (and, being a total function, it cannot
raise); unsubscribing an already-removed handle is a no-op (idempotence).
-/
theorem c8_broker :
    ∀ (u ev : String) (data : Json),
      let s1 := subscribe emptyBroker u
      let s2 := subscribe s1.1 u
      let msg := formatSse ev data
      (queueContentsOf (publish s2.1 u ev data) s1.2 = [msg] ∧
       queueContentsOf (publish s2.1 u ev data) s2.2 = [msg]) ∧
      (queueContentsOf (publish (unsubscribe s2.1 u s1.2) u ev data) s2.2 =
          [msg] ∧
       queueContentsOf (publish (unsubscribe s2.1 u s1.2) u ev data) s1.2 =
          []) ∧
      (publish (unsubscribe (unsubscribe s2.1 u s1.2) u s2.2) u ev data =
        unsubscribe (unsubscribe s2.1 u s1.2) u s2.2) ∧
      (unsubscribe (unsubscribe s2.1 u s1.2) u s1.2 =
        unsubscribe s2.1 u s1.2) := by
  intro u ev data s1 s2 msg
  refine ⟨⟨?_, ?_⟩, ⟨?_, ?_⟩, ?_, ?_⟩ <;>
    simp [s1, s2, msg, subscribe, unsubscribe, publish, queueContentsOf,
      pushMsg, setUserQueues, removeUser, emptyBroker, List.lookup]

/-! ## C10 — partial field extraction -/

/-- A successful case-insensitive literal match captures exactly as many
characters as the pattern has. -/
theorem matchCI_len :
    ∀ (pat l g r : List Char), matchCI pat l = some (g, r) →
      g.length = pat.length := by
  intro pat
  induction pat with
  | nil =>
    intro l g r h
    simp [matchCI] at h
    simp [← h.1]
  | cons p ps ih =>
    intro l g r h
    cases l with
    | nil => simp [matchCI] at h
    | cons c rest =>
      simp only [matchCI] at h
      by_cases hc : lowEq p c
      · simp only [hc, if_true] at h
        cases hm : matchCI ps rest with
        | none => rw [hm] at h; simp at h
        | some q =>
          rw [hm] at h
          simp at h
          rw [← h.1]
          simp [ih rest q.1 q.2 (by rw [hm])]
      · simp [hc] at h

/-- A matched `type` group is one of the two kind labels, hence
non-empty. -/
theorem matchTypeAt_pos :
    ∀ (l : List Char) (t : String), matchTypeAt l = some t →
      t.length ≠ 0 := by
  intro l t h
  unfold matchTypeAt at h
  split at h
  · exact Option.noConfusion h
  · split at h
    · split at h
      · split at h
        · rename_i heq
          cases h
          have hlen := matchCI_len _ _ _ _ heq
          simp only [String.length, List.length_map] at hlen ⊢
          simp at hlen
          omega
        · split at h
          · rename_i heq
            cases h
            have hlen := matchCI_len _ _ _ _ heq
            simp only [String.length, List.length_map] at hlen ⊢
            simp at hlen
            omega
          · exact Option.noConfusion h
      · exact Option.noConfusion h
    · exact Option.noConfusion h

/-- A position-anchored property of matches lifts through `re.search`. -/
theorem searchLeftmost_imp {α : Type} (f : List Char → Option α)
    (P : α → Prop) (hf : ∀ l a, f l = some a → P a) :
    ∀ l a, searchLeftmost f l = some a → P a := by
  intro l
  induction l with
  | nil => intro a h; exact hf [] a h
  | cons c rest ih =>
    intro a h
    simp only [searchLeftmost] at h
    cases hfc : f (c :: rest) with
    | some b => rw [hfc] at h; cases h; exact hf _ _ hfc
    | none => rw [hfc] at h; exact ih a h

/-- C10.  `_extract_partial_fields` (1) succeeds iff the `type` pattern
finds a recognized kind label *and* the `summary` pattern captures a
non-empty value (the code tests Python truthiness, so an empty captured
summary rejects); (2) on success, a missing `content` is backfilled from
the captured summary, and a missing `category` is backfilled with the
kind-dependent default (`일정` for CALENDAR, `메모` for MEMO); (3) on the
raw text `\x7b"type": "CALENDAR", "summary": "Dentist"` — closing
structure absent — the result has kind CALENDAR, summary `"Dentist"`, and
the CALENDAR default category. -/
theorem c10_extract_fields :
    (∀ t : String,
      (extractPartialFields t).isSome =
        ((searchLeftmost matchTypeAt t.data).isSome &&
         (match searchLeftmost (matchKeyStringAt ("summary".data)) t.data with
          | some s => s.length != 0
          | none => false))) ∧
    (∀ (t : String) (j : Json),
      extractPartialFields t = some j →
      (searchLeftmost matchContentAt t.data = none →
        ∀ s,
          searchLeftmost (matchKeyStringAt ("summary".data)) t.data = some s →
          getField j "content" = some (.str s)) ∧
      (searchLeftmost (matchKeyStringAt ("category".data)) t.data = none →
        ∀ ty, searchLeftmost matchTypeAt t.data = some ty →
          getField j "category" =
            some (.str (if ty = "CALENDAR" then "일정" else "메모")))) ∧
    (extractPartialFields c10Text =
      some (.obj [("type", .str "CALENDAR"), ("summary", .str "Dentist"),
                  ("content", .str "Dentist"), ("category", .str "일정")])) := by
  refine ⟨?_, ?_, rfl⟩
  · intro t
    unfold extractPartialFields extractPartialFieldsL
    cases hT : searchLeftmost matchTypeAt t.data with
    | none => simp
    | some ty =>
      cases hS : searchLeftmost (matchKeyStringAt ("summary".data)) t.data with
      | none => simp
      | some s =>
        have hpos : ty.length ≠ 0 :=
          searchLeftmost_imp matchTypeAt (fun a => a.length ≠ 0)
            matchTypeAt_pos t.data ty hT
        have hpos' : (ty.length != 0) = true := by simpa using hpos
        simp [hpos']
        split <;> simp_all
  · intro t j hj
    unfold extractPartialFields extractPartialFieldsL at hj
    cases hT : searchLeftmost matchTypeAt t.data with
    | none => rw [hT] at hj; exact absurd hj (by simp)
    | some ty =>
      cases hS : searchLeftmost (matchKeyStringAt ("summary".data)) t.data with
      | none => rw [hT, hS] at hj; exact absurd hj (by simp)
      | some s =>
        cases hC : searchLeftmost matchContentAt t.data <;>
          cases hG : searchLeftmost (matchKeyStringAt ("category".data))
              t.data <;>
          rw [hT, hS, hC, hG] at hj <;>
          dsimp only at hj <;>
          [skip; skip; skip; skip] <;>
          by_cases hcond : (ty.length != 0 && s.length != 0) = true <;>
          [rw [if_pos hcond] at hj; rw [if_neg hcond] at hj;
           rw [if_pos hcond] at hj; rw [if_neg hcond] at hj;
           rw [if_pos hcond] at hj; rw [if_neg hcond] at hj;
           rw [if_pos hcond] at hj; rw [if_neg hcond] at hj] <;>
          first
          | exact Option.noConfusion hj
          | (cases hj
             refine ⟨?_, ?_⟩ <;> intro h1 x hx <;> cases hx <;>
               simp_all [getField, Json.lookupKey])

/-- C10 witness: the theorem's backfill clause applied to the concrete
raw text of part (3). -/
theorem c10_witness :
    getField
        (.obj [("type", .str "CALENDAR"), ("summary", .str "Dentist"),
               ("content", .str "Dentist"), ("category", .str "일정")])
        "category" = some (.str "일정") := by
  have h := (c10_extract_fields.2.1 c10Text
    (.obj [("type", .str "CALENDAR"), ("summary", .str "Dentist"),
           ("content", .str "Dentist"), ("category", .str "일정")])
    c10_extract_fields.2.2).2 rfl "CALENDAR" rfl
  simpa using h

/-! ## C9 — extraction is lossless on well-formed input -/

theorem dropWhile_append_of_all {p : Char → Bool} (w l : List Char)
    (hw : w.all p = true) :
    (w ++ l).dropWhile p = l.dropWhile p := by
  induction w with
  | nil => rfl
  | cons c w' ih =>
    simp only [List.all_cons, Bool.and_eq_true] at hw
    simp [List.dropWhile_cons, hw.1, ih hw.2]

theorem skipWs_append (w l : List Char) (hw : w.all isJsonWs = true) :
    skipWs (w ++ l) = skipWs l :=
  dropWhile_append_of_all w l hw

theorem jsonLoadsL_ws (w l : List Char) (hw : w.all isJsonWs = true) :
    jsonLoadsL (w ++ l) = jsonLoadsL l := by
  unfold jsonLoadsL
  rw [skipWs_append w l hw]

theorem isJsonWs_ne_brace (c : Char) (h : isJsonWs c = true) :
    (c != '\x7b') = true := by
  simp only [isJsonWs, Bool.or_eq_true, beq_iff_eq] at h
  rcases h with ((h | h) | h) | h <;> subst h <;> decide

theorem dropUntil_brace (w t : List Char) (hw : w.all isJsonWs = true) :
    (w ++ '\x7b' :: t).dropWhile (fun c => c != '\x7b') = '\x7b' :: t := by
  induction w with
  | nil => simp [List.dropWhile_cons]
  | cons c w' ih =>
    simp only [List.all_cons, Bool.and_eq_true] at hw
    simp [List.dropWhile_cons, isJsonWs_ne_brace c hw.1, ih hw.2]

theorem isPrefixL_append_self (p r : List Char) :
    isPrefixL p (p ++ r) = true := by
  induction p with
  | nil => rfl
  | cons c p' ih => simp [isPrefixL, ih]

theorem firstSubIdx_self (pat rest : List Char) :
    firstSubIdx pat (pat ++ rest) = some 0 := by
  cases pat with
  | nil =>
    cases rest with
    | nil => simp [firstSubIdx, isPrefixL]
    | cons c r => simp [firstSubIdx, isPrefixL]
  | cons p ps =>
    simp only [List.cons_append, firstSubIdx]
    rw [if_pos]
    exact isPrefixL_append_self (p :: ps) rest

/-- The first occurrence of ```` ``` ```` in `m ++`​```` ``` ````​`++ t` is at
the boundary when `m` is backtick-free. -/
theorem firstSubIdx_backticks (m : List Char)
    (hm : m.all (fun c => c != '\x60') = true) (t : List Char) :
    firstSubIdx ("```".data) (m ++ '\x60' :: '\x60' :: '\x60' :: t) =
      some m.length := by
  induction m with
  | nil => simp [firstSubIdx, isPrefixL]
  | cons c m' ih =>
    simp only [List.all_cons, Bool.and_eq_true] at hm
    have hc : ('\x60' == c) = false := by
      have := hm.1
      simp only [bne_iff_ne, ne_eq] at this
      simp [beq_iff_eq]
      exact fun h => this h.symm
    simp only [List.cons_append, firstSubIdx]
    rw [if_neg (by simp [isPrefixL, hc])]
    simp [ih hm.2]

theorem length_dropWhile_le (p : Char → Bool) :
    ∀ l : List Char, (l.dropWhile p).length ≤ l.length := by
  intro l
  induction l with
  | nil => simp
  | cons c l' ih =>
    by_cases hc : p c
    · simp [List.dropWhile_cons, hc]
      omega
    · simp [List.dropWhile_cons, hc]

theorem dropWhile_cons_self {p : Char → Bool} {c : Char} {l : List Char}
    (h : (c :: l).dropWhile p = c :: l) : p c = false := by
  by_contra hp
  simp only [Bool.not_eq_false] at hp
  rw [List.dropWhile_cons, if_pos hp] at h
  have := length_dropWhile_le p l
  have h2 := congrArg List.length h
  simp at h2
  omega

/-- Trimming `\s` off a core that already carries none, after surrounding
it with one newline on each side, returns the core. -/
theorem stripRe_newline_wrap (j : List Char)
    (hh : j.dropWhile isReWs = j)
    (hl : j.reverse.dropWhile isReWs = j.reverse) :
    stripRe ('\n' :: (j ++ ['\n'])) = j := by
  unfold stripRe
  have h1 : ('\n' :: (j ++ ['\n'])).dropWhile isReWs =
      (j ++ ['\n']).dropWhile isReWs := by
    simp [List.dropWhile_cons, isReWs]
  rw [h1]
  cases j with
  | nil => simp [List.dropWhile_cons, isReWs]
  | cons c j' =>
    have hc : isReWs c = false := dropWhile_cons_self hh
    have h2 : ((c :: j') ++ ['\n']).dropWhile isReWs = (c :: j') ++ ['\n'] := by
      simp [List.dropWhile_cons, hc]
    rw [h2]
    have h3 : ((c :: j') ++ ['\n']).reverse = '\n' :: (c :: j').reverse := by
      simp
    rw [h3]
    have h4 : ('\n' :: (c :: j').reverse).dropWhile isReWs =
        (c :: j').reverse.dropWhile isReWs := by
      simp [List.dropWhile_cons, isReWs]
    rw [h4, hl]
    simp

/-- C9, counterexample.  The claim quantifies over every raw string that
is valid JSON (optionally fenced).  The bare string `"[1, 2]"` is valid
JSON, but the extraction step searches for a fenced block and then for a
`\x7b`; finding neither, recovery returns the failure dict instead of the
parsed array. -/
theorem c9_counterexample :
    jsonLoads "[1, 2]" = some (.arr [.num "1", .num "2"]) ∧
    parseJsonResponse "[1, 2]" = errorDict "[1, 2]" ∧
    errorDict "[1, 2]" ≠ Json.arr [.num "1", .num "2"] :=
  ⟨rfl, rfl, fun h => Json.noConfusion h⟩

/-- C9, amended.  The extraction step returns well-formed input unmodified
in the two shapes the code actually recognizes: (1) a raw string that is a
valid JSON *object* — optional leading whitespace, then `\x7b` — and that
contains no ```` ```json ```` marker, direct-parses to the same value via
the first-brace extraction; (2) a raw string that is exactly a fenced
```` ```json ```` block whose backtick-free body carries no surrounding
whitespace and is valid JSON direct-parses to that body's value.  In both
shapes the repair and partial-extraction stages are never consulted (the
strict parse of the extracted substring already succeeds). -/
theorem c9_extraction_lossless :
    (∀ (raw : String) (d : List (String × Json)) (w t : List Char),
      firstSubIdx ("```json".data) raw.data = none →
      raw.data = w ++ '\x7b' :: t →
      w.all isJsonWs = true →
      jsonLoads raw = some (.obj d) →
      parseJsonResponse raw = .obj d) ∧
    (∀ (raw : String) (j : List Char) (v : Json),
      raw.data = "```json".data ++ '\n' :: (j ++ '\n' :: '\x60' :: '\x60' :: ['\x60']) →
      j.all (fun c => c != '\x60') = true →
      j.dropWhile isReWs = j →
      j.reverse.dropWhile isReWs = j.reverse →
      jsonLoadsL j = some v →
      parseJsonResponse raw = v) := by
  constructor
  · intro raw d w t hfence hdata hw hload
    have hbrace : extractFromBrace raw.data = some ('\x7b' :: t) := by
      unfold extractFromBrace
      rw [hdata]
      rw [if_pos (by simp)]
      rw [dropUntil_brace w t hw]
    have hloadt : jsonLoadsL ('\x7b' :: t) = some (.obj d) := by
      have : jsonLoads raw = jsonLoadsL ('\x7b' :: t) := by
        unfold jsonLoads
        rw [hdata, jsonLoadsL_ws w _ hw]
      rw [← this, hload]
    have hfc : extractFenceContent raw.data = none := by
      unfold extractFenceContent
      rw [hfence]
    simp only [parseJsonResponse, hfc, hbrace, hloadt]
  · intro raw j v hdata hbt hh hl hload
    have hm : ('\n' :: (j ++ ['\n'])).all (fun c => c != '\x60') = true := by
      simp [hbt]
    have hfence : extractFenceContent raw.data = some j := by
      unfold extractFenceContent
      rw [hdata, firstSubIdx_self]
      dsimp only
      rw [show ("```json".data ++
            '\n' :: (j ++ '\n' :: '\x60' :: '\x60' :: ['\x60'])).drop (0 + 7) =
          '\n' :: (j ++ '\n' :: '\x60' :: '\x60' :: ['\x60']) from by
        rw [show (0 + 7) = ("```json".data).length from by decide]
        exact List.drop_left _ _]
      rw [show '\n' :: (j ++ '\n' :: '\x60' :: '\x60' :: ['\x60']) =
          ('\n' :: (j ++ ['\n'])) ++ '\x60' :: '\x60' :: ['\x60'] from by simp]
      rw [firstSubIdx_backticks _ hm []]
      dsimp only
      rw [show (('\n' :: (j ++ ['\n'])) ++ '\x60' :: '\x60' :: ['\x60']).take
            ('\n' :: (j ++ ['\n'])).length =
          '\n' :: (j ++ ['\n']) from List.take_left _ _]
      rw [stripRe_newline_wrap j hh hl]
    simp only [parseJsonResponse, hfence, hload]

/-- C9 witness: the amended theorem applied to a bare JSON object and to a
fenced JSON array. -/
theorem c9_witness :
    parseJsonResponse "\x7b\"k\": 1\x7d" = .obj [("k", .num "1")] ∧
    parseJsonResponse "```json\n[1]\n```" = .arr [.num "1"] :=
  ⟨c9_extraction_lossless.1 "\x7b\"k\": 1\x7d" [("k", .num "1")] []
      ("\"k\": 1\x7d".data) rfl rfl rfl rfl,
   c9_extraction_lossless.2 "```json\n[1]\n```" ("[1]".data)
      (.arr [.num "1"]) rfl rfl rfl rfl rfl⟩

end OneGate
